import Mathlib

/-!
# Verification of the console_app bulk-data pipeline

Shallow embedding of the JavaScript source of `Msalem012/console_app`:
`DataGenerator` (src/src/utils/DataGenerator.js), the `Employee` model
(batch insert / findAll), `MemoryMonitor`, and the `CommandHandler`
modes 3 and 4.  Randomness (`Math.random()`) is modelled as an explicit
stream of natural numbers consumed one draw at a time; a draw for a
choice among `n` options yields `head % n`, so every index the source
can produce is reachable.  Machine state (the PostgreSQL `employees`
table) is modelled as an explicit value threaded through the operations.
-/

set_option maxRecDepth 8000

namespace ConsoleApp

/-- A calendar date, `year`-`month`-`day`, as produced by
`Date.toISOString().split('T')[0]` in the source. -/
structure Date where
  year : Nat
  month : Nat
  day : Nat
deriving DecidableEq, Repr

/-- Gregorian leap-year test (proleptic, as used by JS `Date` UTC). -/
def isLeap (y : Nat) : Bool :=
  (y % 4 == 0 && y % 100 != 0) || y % 400 == 0

/-- Days in a month of a (non-)leap year. -/
def daysInMonthL (leap : Bool) (m : Nat) : Nat :=
  if m == 2 then (if leap then 29 else 28)
  else if m == 4 || m == 6 || m == 9 || m == 11 then 30
  else 31

def daysInMonth (y m : Nat) : Nat := daysInMonthL (isLeap y) m

def daysInYearL (leap : Bool) : Nat := if leap then 366 else 365

def daysInYear (y : Nat) : Nat := daysInYearL (isLeap y)

/-- A structurally valid calendar date. -/
def isValidDate (d : Date) : Bool :=
  1 ≤ d.month && d.month ≤ 12 && 1 ≤ d.day && d.day ≤ daysInMonth d.year d.month

/-- Date comparison at day granularity (lexicographic y, m, d). -/
def dateLe (a b : Date) : Bool :=
  a.year < b.year || (a.year == b.year &&
    (a.month < b.month || (a.month == b.month && a.day ≤ b.day)))

/-- Strictly-after, as `moment(birth).isAfter(moment(now))` resolves at
day granularity (a birth date at 00:00 of `now`'s day is not after). -/
def dateAfter (a b : Date) : Bool := !dateLe a b

/-- Year-resolution loop of the civil-from-days conversion: consume
whole years starting at `y` while at least `daysInYear y` days remain.
Structural fuel (60 suffices for the 56-year window). -/
def resolveYear : Nat → Nat → Nat → Nat × Nat
  | 0, y, d => (y, d)
  | fuel + 1, y, d =>
    if daysInYear y ≤ d then resolveYear fuel (y + 1) (d - daysInYear y)
    else (y, d)

/-- Month-resolution loop: consume months `m, m+1, …` of a (non-)leap
year while at least a whole month of days remains. -/
def resolveMonth : Nat → Bool → Nat → Nat → Nat × Nat
  | 0, _, m, d => (m, d)
  | fuel + 1, leap, m, d =>
    if m < 12 && daysInMonthL leap m ≤ d then
      resolveMonth fuel leap (m + 1) (d - daysInMonthL leap m)
    else (m, d)

/-- Civil date for a day offset from 1950-01-01, embedding
`new Date(start + k days).toISOString().split('T')[0]`. -/
def daysToDate (n : Nat) : Date :=
  let p := resolveYear 60 1950 n
  let q := resolveMonth 12 (isLeap p.1) 1 p.2
  ⟨p.1, q.1, q.2 + 1⟩

/-- Number of whole days in `[1950-01-01, 2005-12-31)`: the span of
`end.getTime() - start.getTime()` in the source's
`generateRandomBirthDate`, in days. -/
def birthSpanDays : Nat := 20453

def birthDateOk (d : Date) : Bool :=
  isValidDate d && dateLe ⟨1950, 1, 1⟩ d && dateLe d ⟨2005, 12, 31⟩

/-- Total days of the consecutive years `y, y+1, …, y+k-1`. -/
def sumYears (y : Nat) : Nat → Nat
  | 0 => 0
  | k + 1 => daysInYear y + sumYears (y + 1) k

theorem resolveYear_bounds :
    ∀ (k fuel y d : Nat), k ≤ fuel → d < sumYears y k →
      y ≤ (resolveYear fuel y d).1 ∧ (resolveYear fuel y d).1 < y + k ∧
        (resolveYear fuel y d).2 < daysInYear (resolveYear fuel y d).1 := by
  intro k
  induction k with
  | zero =>
    intro fuel y d _ hd
    simp [sumYears] at hd
  | succ k ih =>
    intro fuel y d hk hd
    obtain ⟨fuel', rfl⟩ : ∃ f, fuel = f + 1 := ⟨fuel - 1, by omega⟩
    show _ ∧ _
    rw [resolveYear]
    by_cases h : daysInYear y ≤ d
    · simp only [if_pos h]
      have hd' : d - daysInYear y < sumYears (y + 1) k := by
        simp [sumYears] at hd; omega
      have := ih fuel' (y + 1) (d - daysInYear y) (by omega) hd'
      exact ⟨by omega, by omega, this.2.2⟩
    · simp only [if_neg h]
      exact ⟨Nat.le_refl _, by omega, by omega⟩

theorem sumYears_1950_56 : sumYears 1950 56 = 20454 := by decide

-- Bound and validity of the month-resolution loop, checked for both
-- leap classes and all in-year day offsets.
set_option maxRecDepth 4096 in
theorem resolveMonth_bounds :
    ∀ (leap : Bool) (d : Fin 366), d.val < daysInYearL leap →
      1 ≤ (resolveMonth 12 leap 1 d.val).1 ∧ (resolveMonth 12 leap 1 d.val).1 ≤ 12 ∧
        (resolveMonth 12 leap 1 d.val).2 < daysInMonthL leap (resolveMonth 12 leap 1 d.val).1 := by
  decide

theorem monthPart_ok (y d : Nat) (h1950 : 1950 ≤ y) (h2006 : y < 2006)
    (hd : d < daysInYear y) :
    birthDateOk ⟨y, (resolveMonth 12 (isLeap y) 1 d).1,
      (resolveMonth 12 (isLeap y) 1 d).2 + 1⟩ = true := by
  have hd366 : d < 366 := by
    unfold daysInYear daysInYearL at hd; split at hd <;> omega
  have hm := resolveMonth_bounds (isLeap y) ⟨d, hd366⟩
    (by unfold daysInYear at hd; exact hd)
  obtain ⟨hm1, hm2, hm3⟩ := hm
  generalize hq : resolveMonth 12 (isLeap y) 1 d = q at hm1 hm2 hm3 ⊢
  obtain ⟨m, d2⟩ := q
  simp only at hm1 hm2 hm3
  have hmax : daysInMonthL (isLeap y) m ≤ 31 := by
    unfold daysInMonthL; split_ifs <;> omega
  simp only [birthDateOk, isValidDate, dateLe, daysInMonth, Bool.and_eq_true,
    Bool.or_eq_true, decide_eq_true_eq, beq_iff_eq]
  omega

theorem daysToDate_ok : ∀ n < birthSpanDays, birthDateOk (daysToDate n) = true := by
  intro n hn
  have hn' : n < sumYears 1950 56 := by
    rw [sumYears_1950_56]; unfold birthSpanDays at hn; omega
  have hy := resolveYear_bounds 56 60 1950 n (by omega) hn'
  exact monthPart_ok (resolveYear 60 1950 n).1 (resolveYear 60 1950 n).2
    hy.1 (by omega) hy.2.2

/-! ## Randomness model

Each `Math.random()` call consumes one element of a stream of naturals;
`Math.floor(Math.random() * n)` for a bound `n` is modelled as
`head % n`, so exactly the indices `0 … n-1` the source can produce are
reachable, and every theorem quantifying over the stream covers every
possible sequence of draws. -/

abbrev Rng := List Nat

/-- One bounded draw: `Math.floor(Math.random() * n)`. -/
def draw (r : Rng) (n : Nat) : Nat × Rng :=
  ((r.headD 0) % n, r.tail)

/-! ## Reference pools (DataGenerator.js, verbatim) -/

def firstNamesMale : List String :=
  ["James", "John", "Robert", "Michael", "William", "David", "Richard", "Thomas",
   "Christopher", "Daniel", "Paul", "Mark", "Donald", "Steven", "Kenneth",
   "Andrew", "Frank", "Gregory", "Raymond", "Alexander", "Patrick", "Jack",
   "Dennis", "Jerry", "Tyler", "Aaron", "Jose", "Henry", "Adam", "Douglas"]

def firstNamesFemale : List String :=
  ["Mary", "Patricia", "Jennifer", "Linda", "Elizabeth", "Barbara", "Susan",
   "Jessica", "Sarah", "Karen", "Nancy", "Lisa", "Betty", "Helen", "Sandra",
   "Donna", "Carol", "Ruth", "Sharon", "Michelle", "Laura", "Sarah", "Kimberly",
   "Deborah", "Dorothy", "Lisa", "Nancy", "Karen", "Betty", "Helen"]

def lastNames : List String :=
  ["Anderson", "Adams", "Allen", "Alexander", "Armstrong", "Arnold", "Austin",
   "Brown", "Baker", "Bell", "Bennett", "Brooks", "Butler", "Barnes",
   "Clark", "Collins", "Cook", "Cooper", "Carter", "Campbell", "Cox",
   "Davis", "Miller", "Wilson", "Moore", "Taylor", "Anderson", "Thomas",
   "Evans", "Edwards", "Ellis", "Elliott", "Erickson", "Estrada", "Ewing",
   "Foster", "Fisher", "Flores", "Freeman", "Ferguson", "Ford", "Fox",
   "Franklin", "French", "Fuller", "Flynn", "Farmer", "Fleming", "Fields",
   "Garcia", "Gonzalez", "Green", "Griffin", "Gray", "Graham", "Grant",
   "Harris", "Hall", "Hill", "Howard", "Hughes", "Henderson", "Hayes",
   "Ingram", "Irwin", "Isaac", "Ivanov", "Ibrahim", "Iglesias", "Imai",
   "Johnson", "Jones", "Jackson", "James", "Jenkins", "Jordan", "Joyce",
   "King", "Kelly", "Kim", "Knight", "Kumar", "Kennedy", "Klein",
   "Lee", "Lewis", "Lopez", "Long", "Lynch", "Lawrence", "Lucas",
   "Martin", "Martinez", "Mitchell", "Murphy", "Morris", "Morgan", "Moore",
   "Nelson", "Newman", "Nguyen", "Nixon", "Norman", "Nash", "Newton",
   "O'Brien", "O'Connor", "Oliver", "Olson", "Owen", "Ortiz", "Osborne",
   "Parker", "Patterson", "Perez", "Peterson", "Phillips", "Powell", "Price",
   "Quinn", "Qualls", "Quick", "Quintero", "Quentin", "Quarles", "Queen",
   "Robinson", "Rodriguez", "Roberts", "Reed", "Ross", "Russell", "Rogers",
   "Smith", "Scott", "Stewart", "Sullivan", "Sanders", "Simmons", "Stone",
   "Thompson", "Taylor", "Thomas", "Turner", "Torres", "Tucker", "Tyler",
   "Underwood", "Upton", "Urquhart", "Ulrich", "Urban", "Usher", "Unger",
   "Vargas", "Vaughn", "Vega", "Vincent", "Vogt", "Valdez", "Valencia",
   "White", "Williams", "Wilson", "Wright", "Walker", "Washington", "Watson",
   "Xavier", "Xiong", "Xu", "Xander", "Xerxes", "Xiao", "Ximenes",
   "Young", "York", "Yang", "Yates", "Yeager", "Yoder", "Yuen",
   "Zhang", "Zimmerman", "Zuniga", "Ziegler", "Zamora", "Zhao", "Zulu"]

def middleNames : List String :=
  ["Alexander", "Michael", "James", "William", "David", "John", "Robert",
   "Marie", "Anne", "Elizabeth", "Grace", "Rose", "Joy", "Hope",
   "Lee", "Ray", "Lynn", "Jean", "Ann", "May", "Sue", "Jane"]

/-! ## The Employee record -/

inductive Gender | male | female
deriving DecidableEq, Repr

def Gender.str : Gender → String
  | .male => "Male"
  | .female => "Female"

/-- The `birthDate` field of an in-memory `Employee`: the source keeps
it as a string; `missing` covers absent/empty values, `malformed` a
string `moment(_, 'YYYY-MM-DD', true)` rejects outright, and `onDate`
a string of shape YYYY-MM-DD carrying the parsed components (which may
still fail the calendar-validity check, e.g. 2023-02-30). -/
inductive BirthField
  | missing
  | malformed
  | onDate (d : Date)
deriving DecidableEq, Repr

/-- In-memory employee record as constructed by `new Employee(...)`;
`id`/`createdAt` are null until persisted and are carried by `Row`
below once assigned by storage. -/
structure Employee where
  fullName : String
  birthDate : BirthField
  gender : String
deriving DecidableEq, Repr

/-! ## DataGenerator -/

/-- `generateRandomBirthDate`: a uniformly random instant in
`[1950-01-01T00:00Z, 2005-12-31T00:00Z)` truncated to its calendar day. -/
def generateRandomBirthDate (r : Rng) : Date × Rng :=
  let (n, r) := draw r birthSpanDays
  (daysToDate n, r)

/-- First-name pick of `generateRandomName`:
`this.firstNames[gender.toLowerCase()]` indexed by a random position. -/
def pickFirst (gender : Gender) (r : Rng) : String × Rng :=
  let pool := match gender with
    | .male => firstNamesMale
    | .female => firstNamesFemale
  let (i, r) := draw r pool.length
  (pool.getD i "", r)

/-- Middle-name pick of `generateRandomName`. -/
def pickMiddle (r : Rng) : String × Rng :=
  let (j, r) := draw r middleNames.length
  (middleNames.getD j "", r)

/-- Last-name pick of `generateRandomName`: the full surname pool, or
the pool filtered case-insensitively on the forced initial. -/
def pickLast (forceLastNameLetter : Option Char) (r : Rng) : String × Rng :=
  match forceLastNameLetter with
  | some c =>
    let filtered := lastNames.filter (fun n => n.front.toLower == c.toLower)
    let (k, r) := draw r filtered.length
    (filtered.getD k "", r)
  | none =>
    let (k, r) := draw r lastNames.length
    (lastNames.getD k "", r)

/-- `generateRandomName(gender, forceLastNameLetter)`: draws first,
middle, then last name and returns
`` `${lastName} ${firstName} ${middleName}` ``. -/
def generateRandomName (gender : Gender) (forceLastNameLetter : Option Char)
    (r : Rng) : String × Rng :=
  let (firstName, r) := pickFirst gender r
  let (middleName, r) := pickMiddle r
  let (lastName, r) := pickLast forceLastNameLetter r
  (lastName ++ (" " ++ (firstName ++ (" " ++ middleName))), r)

/-- `generateRandomEmployee(forceGender, forceLastNameLetter)`. -/
def generateRandomEmployee (forceGender : Option Gender)
    (forceLastNameLetter : Option Char) (r : Rng) : Employee × Rng :=
  let (gender, r) := match forceGender with
    | some g => (g, r)
    | none => let (b, r) := draw r 2; (if b == 0 then Gender.male else Gender.female, r)
  let (fullName, r) := generateRandomName gender forceLastNameLetter r
  let (birthDate, r) := generateRandomBirthDate r
  (⟨fullName, .onDate birthDate, gender.str⟩, r)

/-- `n` successive applications of a generator. -/
def genN (mk : Rng → Employee × Rng) : Nat → Rng → List Employee × Rng
  | 0, r => ([], r)
  | n + 1, r =>
    let (e, r) := mk r
    let (es, r) := genN mk n r
    (e :: es, r)

/-- Swap entries `i` and `j` of a list (identity when out of range),
modelling `[array[i], array[j]] = [array[j], array[i]]`. -/
def swapL (l : List Employee) (i j : Nat) : List Employee :=
  match l[i]?, l[j]? with
  | some a, some b => (l.set i b).set j a
  | _, _ => l

/-- Fisher–Yates loop of `shuffleArray`: `i` runs from `len-1` down to
`1`, swapping index `i` with a random `j ≤ i`. -/
def shuffleAux : List Employee → Rng → Nat → List Employee × Rng
  | l, r, 0 => (l, r)
  | l, r, k + 1 =>
    let (j, r') := draw r (k + 2)
    shuffleAux (swapL l (k + 1) j) r' k

def shuffleArray (l : List Employee) (r : Rng) : List Employee × Rng :=
  shuffleAux l r (l.length - 1)

/-- `generateEmployees(baseCount, specialCount)`: `⌊baseCount/2⌋` males
and the remaining base females from the full pools, then `specialCount`
males with a forced "F" surname, all shuffled.  The function performs
no validation of its inputs and returns the fully materialized array. -/
def generateEmployeesRun (baseCount specialCount : Nat) (r : Rng) :
    List Employee × Rng :=
  let maleCount := baseCount / 2
  let femaleCount := baseCount - maleCount
  let (ms, r) := genN (generateRandomEmployee (some .male) none) maleCount r
  let (fs, r) := genN (generateRandomEmployee (some .female) none) femaleCount r
  let (sp, r) := genN (generateRandomEmployee (some .male) (some 'F')) specialCount r
  shuffleArray (ms ++ fs ++ sp) r

/-- The array returned by `generateEmployees` (the source returns only
the array; the advanced random stream is internal threading). -/
def generateEmployees (baseCount specialCount : Nat) (r : Rng) :
    List Employee :=
  (generateEmployeesRun baseCount specialCount r).1

/-- The "special" predicate of the spec: gender Male and surname
starting with the configured letter "F".  The surname is the first
space-separated token of `fullName` (cf. `analyzeEmployees`), i.e. its
first character is `fullName`'s first character. -/
def isSpecial (e : Employee) : Bool :=
  e.gender == "Male" && e.fullName.data.headD ' ' == 'F'

/-! ## Permutation facts about the shuffle -/

theorem count_set_balance {α : Type} [DecidableEq α] (l : List α) (n : Nat)
    (h : n < l.length) (b x : α) :
    (l.set n b).count x + (if l[n] == x then 1 else 0) =
      l.count x + (if b == x then 1 else 0) := by
  conv_rhs => rw [← List.take_append_drop n l, List.drop_eq_getElem_cons h]
  rw [List.set_eq_take_cons_drop b h]
  simp only [List.count_append, List.count_cons]
  omega

theorem swapL_perm (l : List Employee) (i j : Nat) : List.Perm (swapL l i j) l := by
  cases hi : l[i]? with
  | none =>
    have : swapL l i j = l := by unfold swapL; rw [hi]
    rw [this]
  | some a =>
    cases hj : l[j]? with
    | none =>
      have : swapL l i j = l := by unfold swapL; rw [hi, hj]
      rw [this]
    | some b =>
      have hsw : swapL l i j = (l.set i b).set j a := by unfold swapL; rw [hi, hj]
      rw [hsw]
      obtain ⟨hi', hia⟩ := List.getElem?_eq_some_iff.mp hi
      obtain ⟨hj', hjb⟩ := List.getElem?_eq_some_iff.mp hj
      rw [List.perm_iff_count]
      intro x
      have hj'' : j < (l.set i b).length := by simpa using hj'
      have e1 := count_set_balance (l.set i b) j hj'' a x
      have e2 := count_set_balance l i hi' b x
      have hsb : (l.set i b)[j] = b := by
        by_cases hij : i = j
        · subst hij; simp
        · rw [List.getElem_set_ne (by omega)]; exact hjb
      rw [hsb] at e1
      rw [hia] at e2
      simp only [beq_iff_eq] at e1 e2
      split_ifs at e1 e2 <;> omega

theorem shuffleAux_perm (l : List Employee) (r : Rng) (k : Nat) :
    List.Perm (shuffleAux l r k).1 l := by
  induction k generalizing l r with
  | zero => exact List.Perm.refl l
  | succ k ih =>
    unfold shuffleAux
    exact (ih _ _).trans (swapL_perm l (k + 1) _)

theorem shuffleArray_perm (l : List Employee) (r : Rng) :
    List.Perm (shuffleArray l r).1 l :=
  shuffleAux_perm l r (l.length - 1)

/-! ## Composition of the generated stream -/

theorem genN_length (mk : Rng → Employee × Rng) (n : Nat) (r : Rng) :
    (genN mk n r).1.length = n := by
  induction n generalizing r with
  | zero => rfl
  | succ n ih => simp [genN, ih]

theorem genN_countP_of_all (p : Employee → Bool) (mk : Rng → Employee × Rng)
    (h : ∀ r, p (mk r).1 = true) (n : Nat) (r : Rng) :
    (genN mk n r).1.countP p = n := by
  induction n generalizing r with
  | zero => rfl
  | succ n ih => simp [genN, List.countP_cons, h, ih]

theorem genN_countP_of_none (p : Employee → Bool) (mk : Rng → Employee × Rng)
    (h : ∀ r, p (mk r).1 = false) (n : Nat) (r : Rng) :
    (genN mk n r).1.countP p = 0 := by
  induction n generalizing r with
  | zero => rfl
  | succ n ih => simp [genN, List.countP_cons, h, ih]

theorem getD_mem {l : List String} {k : Nat} (h : k < l.length) :
    l.getD k "" ∈ l := by
  rw [List.getD_eq_getElem?_getD, List.getElem?_eq_getElem h]
  exact List.getElem_mem h

/-- The head character of a concatenation comes from the left part when
it is nonempty. -/
theorem headD_data_append (s t : String) (c : Char) (h : s.data ≠ []) :
    ((s ++ t).data.headD c) = s.data.headD c := by
  rw [String.data_append, List.headD_eq_head?, List.headD_eq_head?, List.head?_append]
  cases hld : s.data with
  | nil => exact absurd hld h
  | cons a as => simp

/-- Every possible pick from the F-filtered surname pool starts with
the character `F` (in particular it is nonempty). -/
theorem pickLast_F_head (r : Rng) :
    (pickLast (some 'F') r).1.data.headD ' ' = 'F' ∧
      (pickLast (some 'F') r).1.data ≠ [] := by
  have hfin : ∀ k : Fin 14,
      ((lastNames.filter (fun n => n.front.toLower == 'F'.toLower)).getD k.val "").data.headD ' ' = 'F' ∧
        ((lastNames.filter (fun n => n.front.toLower == 'F'.toLower)).getD k.val "").data ≠ [] := by
    decide
  have hlen : (lastNames.filter (fun n => n.front.toLower == 'F'.toLower)).length = 14 := by
    decide
  unfold pickLast
  simp only
  have hk : (draw r (lastNames.filter (fun n => n.front.toLower == 'F'.toLower)).length).1 < 14 := by
    rw [show (draw r (lastNames.filter (fun n => n.front.toLower == 'F'.toLower)).length).1
        = (r.headD 0) % 14 from by rw [draw, hlen]]
    exact Nat.mod_lt _ (by omega)
  exact hfin ⟨_, hk⟩

/-- The employee built by `generateRandomEmployee` with a forced
gender, written out. -/
theorem genEmp_forced_eq (g : Gender) (fl : Option Char) (r : Rng) :
    (generateRandomEmployee (some g) fl r).1 =
      ⟨(generateRandomName g fl r).1,
        .onDate (generateRandomBirthDate (generateRandomName g fl r).2).1,
        g.str⟩ := rfl

theorem generateRandomName_eq (g : Gender) (fl : Option Char) (r : Rng) :
    (generateRandomName g fl r).1 =
      (pickLast fl (pickMiddle (pickFirst g r).2).2).1 ++
        (" " ++ ((pickFirst g r).1 ++ (" " ++ (pickMiddle (pickFirst g r).2).1))) := rfl

/-- A record generated with forced gender Male and forced surname
letter F always satisfies the special predicate. -/
theorem special_gen_isSpecial (r : Rng) :
    isSpecial (generateRandomEmployee (some .male) (some 'F') r).1 = true := by
  rw [genEmp_forced_eq]
  simp only [isSpecial, Gender.str, beq_self_eq_true, Bool.true_and]
  rw [generateRandomName_eq]
  have h := pickLast_F_head (pickMiddle (pickFirst .male r).2).2
  rw [headD_data_append _ _ _ h.2, h.1]
  rfl

/-- A record generated with forced gender Female never satisfies the
special predicate. -/
theorem female_gen_not_special (fl : Option Char) (r : Rng) :
    isSpecial (generateRandomEmployee (some .female) fl r).1 = false := by
  unfold generateRandomEmployee
  simp [isSpecial, Gender.str]

/-- `generateEmployees` always yields exactly `baseCount + specialCount`
records (the shuffle permutes, preserving length). -/
theorem generateEmployees_length (bc sc : Nat) (r : Rng) :
    (generateEmployees bc sc r).length = bc + sc := by
  unfold generateEmployees generateEmployeesRun
  rw [(shuffleArray_perm _ _).length_eq]
  simp only [List.length_append, genN_length]
  omega

/-- At least `specialCount` records of the generated stream satisfy the
special predicate: all `specialCount` forced records do, and the base
records can only add to the count. -/
theorem generateEmployees_special_ge (bc sc : Nat) (r : Rng) :
    sc ≤ (generateEmployees bc sc r).countP isSpecial := by
  unfold generateEmployees generateEmployeesRun
  rw [(shuffleArray_perm _ _).countP_eq]
  simp only [List.countP_append]
  have h1 := genN_countP_of_all isSpecial _ special_gen_isSpecial sc
    (genN (generateRandomEmployee (some .female) none) (bc - bc / 2)
      (genN (generateRandomEmployee (some .male) none) (bc / 2) r).2).2
  omega

/-! ## Employee.validate -/

structure ValidationResult where
  isValid : Bool
  errors : List String
deriving DecidableEq, Repr

/-- `Employee.prototype.validate()` against the current date `now`
(`moment()`).  The name check `!fullName || fullName.trim().length === 0`
holds exactly when every character is whitespace; the date check uses
strict `YYYY-MM-DD` parsing and rejects dates after `now`; gender must
be the string Male or Female. -/
def validateEmp (now : Date) (e : Employee) : ValidationResult :=
  let nameErrs :=
    if e.fullName.data.all (fun c => c.isWhitespace) then
      ["Full name is required and must be a non-empty string"]
    else []
  let dateErrs :=
    match e.birthDate with
    | .missing => ["Birth date is required"]
    | .malformed => ["Birth date must be in YYYY-MM-DD format"]
    | .onDate d =>
      if !isValidDate d then ["Birth date must be in YYYY-MM-DD format"]
      else if dateAfter d now then ["Birth date cannot be in the future"]
      else []
  let genderErrs :=
    if e.gender == "Male" || e.gender == "Female" then []
    else ["Gender must be either \"Male\" or \"Female\""]
  let errors := nameErrs ++ dateErrs ++ genderErrs
  ⟨errors.isEmpty, errors⟩

/-! ## Storage model: the employees table -/

/-- A persisted row: `id SERIAL PRIMARY KEY`, `full_name`, `birth_date`,
`gender`, with `UNIQUE (full_name, birth_date)` (connection.js). -/
structure Row where
  id : Nat
  full_name : String
  birth_date : Date
  gender : String
deriving DecidableEq, Repr

/-- The employees table: rows in insertion order plus the SERIAL
counter (ids are assigned increasing, never reused). -/
structure Db where
  rows : List Row
  nextId : Nat
deriving DecidableEq, Repr

/-- `String.prototype.trim()`: drop leading and trailing whitespace
(structural definition on the character list). -/
def jsTrim (s : String) : String :=
  String.mk (((s.data.dropWhile Char.isWhitespace).reverse.dropWhile
    Char.isWhitespace).reverse)

/-- Does a row with this `(full_name, birth_date)` key exist? -/
def hasKey (db : Db) (name : String) (d : Date) : Bool :=
  db.rows.any (fun row => row.full_name == name && row.birth_date == d)

/-- Date carried by a validated employee's `birthDate` field.  Records
reach storage only after `validate`, which guarantees the `.onDate`
shape; the other branches are never taken on the insert path. -/
def birthFieldDate : BirthField → Date
  | .onDate d => d
  | _ => ⟨0, 0, 0⟩

/-- Effect of one `VALUES` tuple under
`ON CONFLICT (full_name, birth_date) DO NOTHING`: skip when the key is
present (including keys inserted earlier in the same statement),
otherwise append with the next SERIAL id.  Names are stored trimmed
(`emp.fullName.trim()`). -/
def insertRow (db : Db) (e : Employee) : Db × Bool :=
  let name := jsTrim e.fullName
  let d := birthFieldDate e.birthDate
  if hasKey db name d then (db, false)
  else (⟨db.rows ++ [⟨db.nextId, name, d, e.gender⟩], db.nextId + 1⟩, true)

/-- One multi-row `INSERT … ON CONFLICT DO NOTHING RETURNING id`;
returns the updated table and `result.rowCount` (rows inserted). -/
def insertMany (db : Db) (batch : List Employee) : Db × Nat :=
  match batch with
  | [] => (db, 0)
  | e :: rest =>
    let (db1, ok) := insertRow db e
    let (db2, n) := insertMany db1 rest
    (db2, (if ok then 1 else 0) + n)

/-! ## Employee.batchInsert -/

/-- Error outcomes of `batchInsert`; the source throws `Error` objects
whose messages render these payloads (`validationFailed` keeps the
1-based positions and per-record error lists that the thrown message
enumerates). -/
inductive BatchError
  | emptyInput
  | validationFailed (failures : List (Nat × List String))
  | storage (msg : String)
deriving DecidableEq, Repr

instance {ε α : Type} [DecidableEq ε] [DecidableEq α] :
    DecidableEq (Except ε α) := fun x y =>
  match x, y with
  | .ok a, .ok b =>
    if h : a = b then .isTrue (by rw [h])
    else .isFalse (by intro hh; cases hh; exact h rfl)
  | .error e, .error f =>
    if h : e = f then .isTrue (by rw [h])
    else .isFalse (by intro hh; cases hh; exact h rfl)
  | .ok _, .error _ => .isFalse (by intro hh; cases hh)
  | .error _, .ok _ => .isFalse (by intro hh; cases hh)

/-- The `employees.forEach` validation pass: collect
`(index + 1, errors)` for every record failing validation, in order. -/
def collectFailures (now : Date) : Nat → List Employee → List (Nat × List String)
  | _, [] => []
  | i, e :: rest =>
    let v := validateEmp now e
    if v.isValid then collectFailures now (i + 1) rest
    else (i + 1, v.errors) :: collectFailures now (i + 1) rest

/-- Fixed-size slicing `employees.slice(i, i + batchSize)` of the main
loop, with structural fuel (`fuel ≥ length` suffices when `bs ≥ 1`).
The source's loop does not terminate when `batchSize = 0`; that path is
excluded by hypothesis wherever it matters. -/
def chunksGo (bs : Nat) : Nat → List Employee → List (List Employee)
  | _, [] => []
  | 0, _ :: _ => []
  | fuel + 1, e :: rest => (e :: rest).take bs :: chunksGo bs fuel ((e :: rest).drop bs)

def chunks (bs : Nat) (l : List Employee) : List (List Employee) :=
  chunksGo bs l.length l

/-- Per-batch summary pushed onto `results.batches` (timing fields are
wall-clock strings and are not modelled). -/
structure BatchResult where
  batchNumber : Nat
  recordsInBatch : Nat
  insertedInBatch : Nat
  skippedInBatch : Nat
deriving DecidableEq, Repr

/-- The aggregate `results` object returned on success. -/
structure InsertResults where
  totalEmployees : Nat
  insertedCount : Nat
  skippedCount : Nat
  batches : List BatchResult
deriving DecidableEq, Repr

/-- Storage-fault schedule: entry `i` is the error message thrown by
the `i`-th batch query, or `none` for success.  The empty list models a
fault-free run. -/
abbrev Faults := List (Option String)

/-- The batch loop of `batchInsert`.  A storage fault at a batch aborts
the whole call: the `catch` rethrows only
`Batch insert failed: ${message}` — the accumulated `results` value is
discarded, while the table keeps the batches committed so far. -/
def insertLoop (faults : Faults) :
    List (List Employee) → Nat → Db → InsertResults →
      Except BatchError InsertResults × Db
  | [], _, db, acc => (.ok acc, db)
  | batch :: rest, i, db, acc =>
    match faults.getD i none with
    | some msg => (.error (.storage ("Batch insert failed: " ++ msg)), db)
    | none =>
      let (db', n) := insertMany db batch
      insertLoop faults rest (i + 1) db'
        { acc with
          insertedCount := acc.insertedCount + n,
          skippedCount := acc.skippedCount + (batch.length - n),
          batches := acc.batches ++ [⟨i + 1, batch.length, n, batch.length - n⟩] }

/-- `Employee.batchInsert(employees, batchSize)`.  `prod` is
`process.env.NODE_ENV === 'production'` (batch ceiling 500 vs 1000);
`now` the current date for validation; `faults` the storage-fault
schedule.  Returns the caller-visible outcome and the table state. -/
def batchInsert (prod : Bool) (now : Date) (employees : List Employee)
    (batchSize : Nat) (db : Db) (faults : Faults) :
    Except BatchError InsertResults × Db :=
  if employees.isEmpty then (.error .emptyInput, db)
  else
    let maxBatchSize := if prod then 500 else 1000
    let bs := min batchSize maxBatchSize
    let failures := collectFailures now 0 employees
    if failures.isEmpty then
      insertLoop faults (chunks bs employees) 0 db ⟨employees.length, 0, 0, []⟩
    else (.error (.validationFailed failures), db)

/-! ## Facts about batchInsert -/

/-- Declarative description of the validation pass: one entry per
failing record, carrying its 1-based position and its errors, in
stream order. -/
theorem collectFailures_eq (now : Date) (i : Nat) (l : List Employee) :
    collectFailures now i l =
      ((l.enumFrom i).filter (fun p => !(validateEmp now p.2).isValid)).map
        (fun p => (p.1 + 1, (validateEmp now p.2).errors)) := by
  induction l generalizing i with
  | nil => rfl
  | cons e rest ih =>
    simp only [collectFailures, List.enumFrom_cons, List.filter_cons]
    cases hv : (validateEmp now e).isValid with
    | true => simp [hv, ih]
    | false => simp [hv, ih]

theorem collectFailures_ne_nil (now : Date) {l : List Employee}
    (h : ∃ e ∈ l, (validateEmp now e).isValid = false) :
    ∀ i, collectFailures now i l ≠ [] := by
  induction l with
  | nil => simp at h
  | cons e rest ih =>
    intro i
    obtain ⟨x, hx, hxv⟩ := h
    unfold collectFailures
    cases hv : (validateEmp now e).isValid with
    | true =>
      rw [if_pos hv]
      rcases List.mem_cons.mp hx with rfl | hx'
      · rw [hv] at hxv; cases hxv
      · exact ih ⟨x, hx', hxv⟩ (i + 1)
    | false =>
      rw [if_neg (by simp [hv])]
      simp

theorem chunksGo_flatten (bs : Nat) (hbs : 1 ≤ bs) :
    ∀ (fuel : Nat) (l : List Employee), l.length ≤ fuel →
      (chunksGo bs fuel l).flatten = l := by
  intro fuel
  induction fuel with
  | zero =>
    intro l hl
    cases l with
    | nil => rfl
    | cons e rest => simp at hl
  | succ fuel ih =>
    intro l hl
    cases l with
    | nil => rfl
    | cons e rest =>
      simp only [chunksGo, List.flatten_cons]
      rw [ih _ (by simp at hl ⊢; omega), List.take_append_drop]

theorem chunks_flatten (bs : Nat) (hbs : 1 ≤ bs) (l : List Employee) :
    (chunks bs l).flatten = l :=
  chunksGo_flatten bs hbs l.length l (Nat.le_refl _)

/-- A batch whose records all collide with persisted keys is absorbed:
no row is added and `rowCount` is 0. -/
theorem insertMany_all_dup (db : Db) {batch : List Employee}
    (h : ∀ e ∈ batch,
      hasKey db (jsTrim e.fullName) (birthFieldDate e.birthDate) = true) :
    insertMany db batch = (db, 0) := by
  induction batch with
  | nil => rfl
  | cons e rest ih =>
    have he := h e (List.mem_cons_self e rest)
    simp only [insertMany, insertRow, he, if_pos]
    rw [ih (fun x hx => h x (List.mem_cons_of_mem e hx))]
    simp

/-- Fault-free loop over batches of already-persisted records: the
table is unchanged, nothing is inserted, everything is skipped. -/
theorem insertLoop_all_dup (db : Db) :
    ∀ (Bs : List (List Employee)) (i : Nat) (acc : InsertResults),
      (∀ b ∈ Bs, ∀ e ∈ b,
        hasKey db (jsTrim e.fullName) (birthFieldDate e.birthDate) = true) →
      ∃ res, insertLoop [] Bs i db acc = (.ok res, db) ∧
        res.insertedCount = acc.insertedCount ∧
        res.skippedCount = acc.skippedCount + (Bs.map List.length).sum ∧
        res.totalEmployees = acc.totalEmployees := by
  intro Bs
  induction Bs with
  | nil => exact fun i acc _ => ⟨acc, rfl, rfl, by simp, rfl⟩
  | cons b rest ih =>
    intro i acc h
    unfold insertLoop
    simp only [List.getD_nil]
    rw [insertMany_all_dup db (h b (List.mem_cons_self b rest))]
    obtain ⟨res, heq, h1, h2, h3⟩ :=
      ih (i + 1) { acc with
          insertedCount := acc.insertedCount + 0,
          skippedCount := acc.skippedCount + (b.length - 0),
          batches := acc.batches ++ [⟨i + 1, b.length, 0, b.length - 0⟩] }
        (fun x hx e he => h x (List.mem_cons_of_mem b hx) e he)
    exact ⟨res, heq, by simpa using h1, by simp at h2 ⊢; omega, h3⟩

/-- A storage fault at batch `k` (all earlier batches clean) aborts the
loop with only the message; the table keeps the first `k` batches. -/
theorem insertLoop_fault (faults : Faults) (msg : String) :
    ∀ (k : Nat) (Bs : List (List Employee)) (i : Nat) (db : Db)
      (acc : InsertResults),
      (∀ j < k, faults.getD (i + j) none = none) →
      faults.getD (i + k) none = some msg →
      k < Bs.length →
      insertLoop faults Bs i db acc =
        (.error (.storage ("Batch insert failed: " ++ msg)),
          (Bs.take k).foldl (fun d b => (insertMany d b).1) db) := by
  intro k
  induction k with
  | zero =>
    intro Bs i db acc _ hk hlen
    cases Bs with
    | nil => simp at hlen
    | cons b rest =>
      unfold insertLoop
      rw [show i + 0 = i from rfl] at hk
      rw [hk]
      rfl
  | succ k ih =>
    intro Bs i db acc hclean hk hlen
    cases Bs with
    | nil => simp at hlen
    | cons b rest =>
      unfold insertLoop
      have h0 : faults.getD i none = none := by
        have := hclean 0 (Nat.zero_lt_succ k)
        simpa using this
      rw [h0]
      simp only
      rw [ih rest (i + 1) (insertMany db b).1 _
        (fun j hj => by
          have := hclean (j + 1) (by omega)
          rwa [show i + (j + 1) = i + 1 + j from by omega] at this)
        (by rwa [show i + 1 + k = i + (k + 1) from by omega])
        (by simpa using hlen)]
      rfl

theorem collectFailures_eq_nil (now : Date) {l : List Employee}
    (h : ∀ e ∈ l, (validateEmp now e).isValid = true) :
    ∀ i, collectFailures now i l = [] := by
  induction l with
  | nil => intro i; rfl
  | cons e rest ih =>
    intro i
    unfold collectFailures
    rw [if_pos (h e (List.mem_cons_self e rest))]
    exact ih (fun x hx => h x (List.mem_cons_of_mem e hx)) (i + 1)

/-! ## Employee.findAll and mode 3 (list all employees)

`findAll({sortBy: 'full_name', sortOrder: 'ASC'})` executes a single
`SELECT … ORDER BY full_name ASC` over the whole table — no LIMIT, no
cursor.  SQL fixes only the key order; the relative order of rows with
equal `full_name` is engine-chosen, modelled by quantifying over the
pre-sort row order `phys` (any permutation of the table) and applying a
stable sort on the name alone. -/

def nameLe (a b : Row) : Bool := a.full_name ≤ b.full_name

def sortRowsByName (phys : List Row) : List Row :=
  phys.mergeSort nameLe

/-- `employee.calculateAge()`: `moment().diff(birth, 'years')`, whole
years between the birth date and `now`. -/
def calculateAge (now birth : Date) : Nat :=
  if now.month < birth.month || (now.month == birth.month && now.day < birth.day) then
    now.year - birth.year - 1
  else
    now.year - birth.year

def strRepeat (c : Char) (n : Nat) : String := String.mk (List.replicate n c)

/-- `String.prototype.padEnd(n)` for ASCII content. -/
def padEnd (s : String) (n : Nat) : String :=
  s ++ strRepeat ' ' (n - s.length)

def pad2 (n : Nat) : String := if n < 10 then "0" ++ toString n else toString n

def dateStr (d : Date) : String :=
  toString d.year ++ "-" ++ pad2 d.month ++ "-" ++ pad2 d.day

/-- One fixed-width data line of the report. -/
def rowLine (now : Date) (r : Row) : String :=
  padEnd (toString r.id) 8 ++ padEnd r.full_name 35 ++
    padEnd (dateStr r.birth_date) 15 ++ padEnd r.gender 10 ++
    toString (calculateAge now r.birth_date) ++ "\n"

/-- `generateEmployeeListText`: header block, column headers, one line
per employee, footer.  Wall-clock strings (`Generated:`/execution time)
are parameters. -/
def generateEmployeeListText (employees : List Row) (now : Date)
    (nowStr execTime : String) : String :=
  strRepeat '=' 80 ++ "\n" ++
    "                         EMPLOYEE DIRECTORY REPORT\n" ++
    strRepeat '=' 80 ++ "\n" ++
    "Generated: " ++ nowStr ++ "\n" ++
    "Total Employees: " ++ toString employees.length ++ "\n" ++
    "Query Execution Time: " ++ execTime ++ "\n" ++
    "Sorted by: Full Name (Ascending)\n" ++
    strRepeat '=' 80 ++ "\n\n" ++
    padEnd "ID" 8 ++ padEnd "Full Name" 35 ++ padEnd "Birth Date" 15 ++
    padEnd "Gender" 10 ++ "Age\n" ++
    strRepeat '-' 80 ++ "\n" ++
    String.join (employees.map (rowLine now)) ++
    "\n" ++ strRepeat '-' 80 ++ "\n" ++
    "Total Records: " ++ toString employees.length ++ "\n" ++
    "Report generated by Employee Directory Terminal\n" ++
    "End of Report\n" ++
    strRepeat '=' 80 ++ "\n"

/-- Caller-visible outcome of mode 3: either the distinct no-records
signal (an early return, before any file is created) or a written
artifact with its content and record count. -/
inductive Mode3Outcome
  | noRecords
  | fileWritten (content : String) (recordCount : Nat)
deriving DecidableEq, Repr

/-- `mode3_listAllEmployees`: fetch everything sorted by name; if the
count is zero emit the no-records warning and stop; otherwise build the
report text and write it. -/
def mode3_listAllEmployees (phys : List Row) (now : Date)
    (nowStr execTime : String) : Mode3Outcome :=
  let sorted := sortRowsByName phys
  if sorted.length = 0 then .noRecords
  else .fileWritten (generateEmployeeListText sorted now nowStr execTime) sorted.length

theorem nameLe_trans (a b c : Row) :
    nameLe a b → nameLe b c → nameLe a c := by
  simp only [nameLe, decide_eq_true_eq]
  exact le_trans

theorem nameLe_total (a b : Row) : nameLe a b || nameLe b a := by
  simp only [nameLe, Bool.or_eq_true, decide_eq_true_eq]
  exact le_total a.full_name b.full_name

/-! ## MemoryMonitor -/

/-- Result of `checkMemoryLimit` together with an effect count: how
many garbage-collection requests the call performed.  The source body
computes `heapUsedMB = heapUsed / 1024 / 1024`, compares it with the
limit, and at most logs warnings — it never calls
`forceGarbageCollection` and never throws, so the effect count is 0. -/
structure MemCheck where
  current : ℚ
  limit : Nat
  exceeded : Bool
  gcRequests : Nat
deriving DecidableEq, Repr

/-- `MemoryMonitor.checkMemoryLimit(limitMB)`, with the sampled
`process.memoryUsage().heapUsed` made explicit. -/
def checkMemoryLimit (heapUsed : Nat) (limitMB : Nat) : MemCheck :=
  let heapUsedMB : ℚ := (heapUsed : ℚ) / 1024 / 1024
  let limitReached : Bool := decide ((limitMB : ℚ) < heapUsedMB)
  ⟨heapUsedMB, limitMB, limitReached, 0⟩

/-- `MemoryMonitor.forceGarbageCollection()`: a separate static method;
requests one collection when the runtime exposes `global.gc`, none
otherwise.  Returns the number of collection requests performed. -/
def forceGarbageCollection (gcAvailable : Bool) : Nat :=
  if gcAvailable then 1 else 0

/-! ## mode 4 (generate bulk data) -/

/-- The array handed by `mode4_generateBulkData` to
`Employee.batchInsert`: the fully materialized result of
`DataGenerator.generateEmployees(1000000, 100)`. -/
def mode4Handoff (r : Rng) : List Employee :=
  generateEmployees 1000000 100 r

/-- `mode4_generateBulkData`: generate everything, then batch-insert
with requested batch size 1000. -/
def mode4_generateBulkData (prod : Bool) (now : Date) (r : Rng) (db : Db)
    (faults : Faults) : Except BatchError InsertResults × Db :=
  batchInsert prod now (mode4Handoff r) 1000 db faults

/-! ## Concrete fixtures used by witnesses and counterexamples -/

def now0 : Date := ⟨2026, 10, 11⟩

def empFoster : Employee := ⟨"Foster John Lee", .onDate ⟨1980, 1, 15⟩, "Male"⟩

def empBaker : Employee := ⟨"Baker Ann May", .onDate ⟨1990, 6, 2⟩, "Female"⟩

def empBad : Employee := ⟨"", .missing, "X"⟩

def dbEmpty : Db := ⟨[], 1⟩

def dbWithFoster : Db := ⟨[⟨1, "Foster John Lee", ⟨1980, 1, 15⟩, "Male"⟩], 2⟩

/-- An rng stream under which the single base male of
`generateEmployees 2 0` draws surname index 35 — the surname Foster. -/
def rngFoster : Rng := [0, 0, 35, 0, 0, 0, 0, 0, 0]

/-! ## Claims -/

/-- C1, counterexample.  The claim says exactly `specialCount` records
satisfy the special predicate.  With `baseCount = 2, specialCount = 0`
there is a reachable random stream (`rngFoster`, giving the base male
the surname Foster) under which one record satisfies the predicate, so
the count is not `specialCount`. -/
theorem C1_counterexample :
    (generateEmployees 2 0 rngFoster).countP isSpecial = 1 ∧
      (generateEmployees 2 0 rngFoster).countP isSpecial ≠ 0 := by
  decide

/-- C1, amended: `generateEmployees baseCount specialCount` returns
exactly `baseCount + specialCount` records of which **at least**
`specialCount` satisfy the special predicate (gender Male and surname
initial F): the `specialCount` forced records always satisfy it, and
base males may add to the count by drawing an F-surname from the full
pool. -/
theorem C1_generateEmployees_composition (bc sc : Nat) (r : Rng) :
    (generateEmployees bc sc r).length = bc + sc ∧
      sc ≤ (generateEmployees bc sc r).countP isSpecial :=
  ⟨generateEmployees_length bc sc r, generateEmployees_special_ge bc sc r⟩

/-- C4, counterexample.  The claim says the generator never
materializes more than `batchSize` records ahead of the consumer.  In
the code the full array is built and handed over before the first
insert: the handoff list of mode 4 has 1 000 100 entries while the
requested batch size is 1000. -/
theorem C4_counterexample :
    (mode4Handoff []).length = 1000100 ∧ 1000 < 1000100 := by
  refine ⟨?_, by omega⟩
  unfold mode4Handoff
  rw [generateEmployees_length]

/-- C4, amended: generation is eager, not lazy.  For every random
stream, `mode4_generateBulkData` materializes all
`baseCount + specialCount = 1000100` records in one array before the
first batch is submitted, so peak held records equal the total, not the
batch size. -/
theorem C4_generator_materializes_all (r : Rng) :
    (mode4Handoff r).length = 1000100 ∧
      (∀ prod now db faults,
        mode4_generateBulkData prod now r db faults =
          batchInsert prod now (mode4Handoff r) 1000 db faults) := by
  refine ⟨?_, fun _ _ _ _ => rfl⟩
  unfold mode4Handoff
  rw [generateEmployees_length]

/-- C7, counterexample.  The claim says the generator fails with a
ConfigurationError when `baseCount + specialCount ≤ 0`.  The source
performs no such validation: `generateEmployees(0, 0)` returns
normally, with an empty array (no error of any kind exists on this
path). -/
theorem C7_counterexample :
    (generateEmployees 0 0 []) = [] := by
  decide

/-- C7, amended: `generateEmployees` never validates its counts — for
zero requested records it returns an empty array for every random
stream; the generator has no batch-size parameter at all.  The only
adjacent guard sits downstream: `Employee.batchInsert` rejects an empty
employees array. -/
theorem C7_no_configuration_error (r : Rng) :
    (generateEmployees 0 0 r) = [] ∧
      (∀ prod now bs db faults,
        batchInsert prod now [] bs db faults = (.error .emptyInput, db)) :=
  ⟨rfl, fun _ _ _ _ _ => rfl⟩

/-- C5: if any record of the batch fails validation, `batchInsert`
fails with a validation error enumerating every failing record by its
1-based position (with its reasons), and the table is untouched — no
record of the batch is written. -/
theorem C5_batch_validation_rejects_wholesale
    (prod : Bool) (now : Date) (emps : List Employee) (batchSize : Nat)
    (db : Db) (faults : Faults)
    (hne : emps ≠ [])
    (hbad : ∃ e ∈ emps, (validateEmp now e).isValid = false) :
    batchInsert prod now emps batchSize db faults =
      (.error (.validationFailed
        (((emps.enumFrom 0).filter (fun p => !(validateEmp now p.2).isValid)).map
          (fun p => (p.1 + 1, (validateEmp now p.2).errors)))), db) := by
  unfold batchInsert
  rw [if_neg (by simpa using hne)]
  simp only
  rw [if_neg (by
    simp only [List.isEmpty_iff]
    exact collectFailures_ne_nil now hbad 0)]
  rw [collectFailures_eq]

/-- C5 witness: a concrete batch whose second record is invalid is
rejected with exactly that record enumerated at position 2, with the
table unchanged. -/
theorem C5_witness :
    [empFoster, empBad] ≠ [] ∧
      batchInsert false now0 [empFoster, empBad] 5 dbEmpty [] =
        (.error (.validationFailed
          ((([empFoster, empBad].enumFrom 0).filter
              (fun p => !(validateEmp now0 p.2).isValid)).map
            (fun p => (p.1 + 1, (validateEmp now0 p.2).errors)))), dbEmpty) :=
  ⟨by decide,
    C5_batch_validation_rejects_wholesale false now0 [empFoster, empBad] 5
      dbEmpty [] (by decide) (by decide)⟩

/-- C6: re-inserting a batch every record of which collides on
`(fullName, birthDate)` with an already-persisted row succeeds without
error, counts every record as skipped and none as inserted, and leaves
the persisted table exactly unchanged (idempotence under retry). -/
theorem C6_duplicate_reinsert_idempotent
    (prod : Bool) (now : Date) (emps : List Employee) (batchSize : Nat)
    (db : Db)
    (hne : emps ≠ [])
    (hbs : 1 ≤ batchSize)
    (hval : ∀ e ∈ emps, (validateEmp now e).isValid = true)
    (hdup : ∀ e ∈ emps,
      hasKey db (jsTrim e.fullName) (birthFieldDate e.birthDate) = true) :
    ∃ res, batchInsert prod now emps batchSize db [] = (.ok res, db) ∧
      res.insertedCount = 0 ∧ res.skippedCount = emps.length ∧
      res.totalEmployees = emps.length := by
  unfold batchInsert
  rw [if_neg (by simpa using hne)]
  simp only
  rw [if_pos (by
    simp only [List.isEmpty_iff]
    exact collectFailures_eq_nil now hval 0)]
  have hbs' : 1 ≤ min batchSize (if prod then 500 else 1000) := by
    cases prod <;> simp <;> omega
  have hmem : ∀ b ∈ chunks (min batchSize (if prod then 500 else 1000)) emps,
      ∀ e ∈ b, hasKey db (jsTrim e.fullName) (birthFieldDate e.birthDate) = true := by
    intro b hb e he
    apply hdup
    rw [← chunks_flatten (min batchSize (if prod then 500 else 1000)) hbs' emps]
    exact List.mem_flatten_of_mem hb he
  obtain ⟨res, heq, h1, h2, h3⟩ :=
    insertLoop_all_dup db (chunks (min batchSize (if prod then 500 else 1000)) emps)
      0 ⟨emps.length, 0, 0, []⟩ hmem
  refine ⟨res, heq, by simpa using h1, ?_, by simpa using h3⟩
  rw [h2]
  have := congrArg List.length
    (chunks_flatten (min batchSize (if prod then 500 else 1000)) hbs' emps)
  rw [List.length_flatten] at this
  simpa using this

/-- C6 witness: retrying a batch containing only the already-persisted
Foster record is absorbed: no error, 0 inserted, 1 skipped, table
unchanged. -/
theorem C6_witness :
    ∃ res, batchInsert false now0 [empFoster] 1000 dbWithFoster [] =
        (.ok res, dbWithFoster) ∧
      res.insertedCount = 0 ∧ res.skippedCount = 1 ∧
      res.totalEmployees = 1 := by
  have h := C6_duplicate_reinsert_idempotent false now0 [empFoster] 1000
    dbWithFoster (by decide) (by decide) (by decide) (by decide)
  simpa using h

/-- C2, counterexample.  The claim says a failed multi-batch insert
reports the counts accumulated before the failing batch to its caller.
Two runs that accumulate different counts before an identical
second-batch storage fault return the *same* error value — the thrown
`Batch insert failed: boom` message carries no counts, so the caller
cannot recover them: run A (empty table) inserted 1 record in batch 1,
run B (Foster already persisted) inserted 0, yet both callers see the
identical result. -/
theorem C2_counterexample :
    (batchInsert false now0 [empFoster, empBaker] 1 dbEmpty
        [none, some "boom"]).1 =
      .error (.storage "Batch insert failed: boom") ∧
    (batchInsert false now0 [empFoster, empBaker] 1 dbWithFoster
        [none, some "boom"]).1 =
      .error (.storage "Batch insert failed: boom") ∧
    (batchInsert false now0 [empFoster, empBaker] 1 dbEmpty
        [none, some "boom"]).2.rows.length = dbEmpty.rows.length + 1 ∧
    (batchInsert false now0 [empFoster, empBaker] 1 dbWithFoster
        [none, some "boom"]).2.rows.length = dbWithFoster.rows.length := by
  decide

/-- C2, amended: a storage fault at batch `k` (earlier batches clean)
aborts the whole `batchInsert` call with only the error message
`Batch insert failed: …`; the accumulated aggregate counts are
discarded from the caller's perspective, while the batches committed
before the fault remain persisted in storage. -/
theorem C2_insertStream_failure_reporting
    (prod : Bool) (now : Date) (emps : List Employee) (batchSize : Nat)
    (db : Db) (faults : Faults) (msg : String) (k : Nat)
    (hne : emps ≠ [])
    (hval : ∀ e ∈ emps, (validateEmp now e).isValid = true)
    (hclean : ∀ j < k, faults.getD j none = none)
    (hk : faults.getD k none = some msg)
    (hlen : k < (chunks (min batchSize (if prod then 500 else 1000)) emps).length) :
    batchInsert prod now emps batchSize db faults =
      (.error (.storage ("Batch insert failed: " ++ msg)),
        ((chunks (min batchSize (if prod then 500 else 1000)) emps).take k).foldl
          (fun d b => (insertMany d b).1) db) := by
  unfold batchInsert
  rw [if_neg (by simpa using hne)]
  simp only
  rw [if_pos (by
    simp only [List.isEmpty_iff]
    exact collectFailures_eq_nil now hval 0)]
  exact insertLoop_fault faults msg k _ 0 db _
    (fun j hj => by simpa using hclean j hj)
    (by simpa using hk) hlen

/-- C2 witness: concrete instantiation of the amended failure
semantics — two batches of one record each, fault at the second. -/
theorem C2_witness :
    [empFoster, empBaker] ≠ [] ∧
      batchInsert false now0 [empFoster, empBaker] 1 dbEmpty
          [none, some "boom"] =
        (.error (.storage ("Batch insert failed: " ++ "boom")),
          ((chunks (min 1 (if false then 500 else 1000)) [empFoster, empBaker]).take 1).foldl
            (fun d b => (insertMany d b).1) dbEmpty) :=
  ⟨by decide,
    C2_insertStream_failure_reporting false now0 [empFoster, empBaker] 1
      dbEmpty [none, some "boom"] "boom" 1 (by decide) (by decide)
      (by decide) (by decide) (by decide)⟩

/-! ## C3, C8, C9 -/

/-- The claimed output order of the export: non-decreasing in the sort
key (primary: full name, tie-break: id). -/
def sortedByNameId (l : List Row) : Prop :=
  l.Chain' (fun a b => a.full_name < b.full_name ∨
    (a.full_name = b.full_name ∧ a.id ≤ b.id))

def rowF1 : Row := ⟨1, "Foster Amy Lee", ⟨1980, 1, 15⟩, "Female"⟩

def rowF2 : Row := ⟨2, "Foster Amy Lee", ⟨1985, 3, 20⟩, "Male"⟩

/-- C3, counterexample.  The claim asserts the export's order has an id
tie-break.  The executed query orders by `full_name` only, so the
relative order of equal names is whatever the engine returns: with the
two persisted rows `rowF1`/`rowF2` (equal names, ids 1 and 2) and
engine order `[rowF2, rowF1]`, the stable name-only sort returns
`[rowF2, rowF1]` — ids 2 before 1, violating the claimed order. -/
theorem C3_counterexample :
    List.Perm [rowF2, rowF1] [rowF1, rowF2] ∧
      sortRowsByName [rowF2, rowF1] = [rowF2, rowF1] ∧
      ¬ sortedByNameId (sortRowsByName [rowF2, rowF1]) := by
  have hsorted : List.Pairwise (fun a b => nameLe a b = true) [rowF2, rowF1] := by
    simp [List.pairwise_cons, nameLe, rowF1, rowF2]
  have heq : sortRowsByName [rowF2, rowF1] = [rowF2, rowF1] :=
    List.mergeSort_of_sorted hsorted
  refine ⟨List.Perm.swap rowF1 rowF2 [], heq, ?_⟩
  rw [heq]
  simp only [sortedByNameId, List.chain'_cons, List.chain'_singleton, and_true,
    rowF1, rowF2]
  rintro (h1 | ⟨h2, h3⟩)
  · exact lt_irrefl _ h1
  · omega

/-- C3, amended: the export (one `ORDER BY full_name ASC` query, no
page size exists) visits every persisted record exactly once — the
output is a permutation of the table for every engine-chosen physical
order — and is non-decreasing in `full_name`; the order of rows with
equal names is unspecified (no id tie-break). -/
theorem C3_export_visits_once_sorted (rows phys : List Row)
    (h : List.Perm phys rows) :
    List.Perm (sortRowsByName phys) rows ∧
      (sortRowsByName phys).Pairwise (fun a b => nameLe a b = true) := by
  constructor
  · exact (List.mergeSort_perm phys nameLe).trans h
  · exact List.sorted_mergeSort
      (fun a b c => nameLe_trans a b c)
      (fun a b => nameLe_total a b) phys

/-- C3 witness: the amended statement at a one-row table. -/
theorem C3_witness :
    List.Perm (sortRowsByName [rowF1]) [rowF1] ∧
      (sortRowsByName [rowF1]).Pairwise (fun a b => nameLe a b = true) :=
  C3_export_visits_once_sorted [rowF1] [rowF1] (List.Perm.refl _)

/-- C8, counterexample.  The claim says an over-limit check triggers a
garbage-collection request exactly once per call.  With sampled heap
600 MiB against a 512 MB limit the check reports `exceeded = true` but
performs zero collection requests — `checkMemoryLimit` never calls
`forceGarbageCollection`, it only logs warnings. -/
theorem C8_counterexample :
    (checkMemoryLimit (600 * 1048576) 512).exceeded = true ∧
      (checkMemoryLimit (600 * 1048576) 512).gcRequests = 0 ∧
      (checkMemoryLimit (600 * 1048576) 512).gcRequests ≠ 1 := by
  refine ⟨?_, rfl, by decide⟩
  unfold checkMemoryLimit
  simp only [decide_eq_true_eq]
  norm_num

/-- C8, amended: `checkMemoryLimit` is a total computation (it never
throws): it reports `exceeded = true` exactly when the sampled heap
usage in MB exceeds the limit (`heapUsed > limitMB · 2²⁰` bytes), and
performs no garbage-collection request in any case —
`forceGarbageCollection` is a separate method this check never
invokes. -/
theorem C8_checkMemoryLimit_behavior (heapUsed limitMB : Nat) :
    ((checkMemoryLimit heapUsed limitMB).exceeded = true ↔
        limitMB * 1048576 < heapUsed) ∧
      (checkMemoryLimit heapUsed limitMB).gcRequests = 0 := by
  refine ⟨?_, rfl⟩
  unfold checkMemoryLimit
  simp only [decide_eq_true_eq]
  rw [div_div, lt_div_iff₀ (by norm_num : (0 : ℚ) < 1024 * 1024)]
  rw [show ((1024 : ℚ) * 1024) = ((1048576 : Nat) : ℚ) by norm_num,
    ← Nat.cast_mul, Nat.cast_lt]

/-- C9: with zero persisted records, mode 3 returns the distinct
no-records outcome — an early return taken before any file content is
built or written — and that outcome is distinct from every written
artifact. -/
theorem C9_mode3_empty_no_artifact (phys : List Row) (now : Date)
    (nowStr execTime : String) (h : phys = []) :
    mode3_listAllEmployees phys now nowStr execTime = .noRecords ∧
      ∀ c n, (Mode3Outcome.noRecords ≠ Mode3Outcome.fileWritten c n) := by
  subst h
  refine ⟨?_, fun c n hcn => by cases hcn⟩
  unfold mode3_listAllEmployees sortRowsByName
  rw [List.mergeSort_nil]
  rfl

/-- C9 witness: the empty table. -/
theorem C9_witness :
    mode3_listAllEmployees [] now0 "ts" "0ms" = .noRecords ∧
      ∀ c n, (Mode3Outcome.noRecords ≠ Mode3Outcome.fileWritten c n) :=
  C9_mode3_empty_no_artifact [] now0 "ts" "0ms" rfl

/-! ## C10: generated records pass validation -/

theorem dateLe_trans {a b c : Date} (h1 : dateLe a b = true)
    (h2 : dateLe b c = true) : dateLe a c = true := by
  simp only [dateLe, Bool.or_eq_true, Bool.and_eq_true, decide_eq_true_eq,
    beq_iff_eq] at h1 h2 ⊢
  omega

theorem pickFirst_male_eq (r : Rng) :
    (pickFirst .male r).1 =
      firstNamesMale.getD ((r.headD 0) % firstNamesMale.length) "" := rfl

theorem pickFirst_female_eq (r : Rng) :
    (pickFirst .female r).1 =
      firstNamesFemale.getD ((r.headD 0) % firstNamesFemale.length) "" := rfl

/-- Every possible first-name pick contains a non-whitespace
character (the pools contain no blank entries). -/
theorem pickFirst_has_nonws (g : Gender) (r : Rng) :
    (pickFirst g r).1.data.any (fun c => !c.isWhitespace) = true := by
  cases g with
  | male =>
    rw [pickFirst_male_eq]
    have hfin : ∀ k : Fin 30,
        (firstNamesMale.getD k.val "").data.any (fun c => !c.isWhitespace) = true := by
      decide
    exact hfin ⟨_, Nat.mod_lt _ (by decide)⟩
  | female =>
    rw [pickFirst_female_eq]
    have hfin : ∀ k : Fin 30,
        (firstNamesFemale.getD k.val "").data.any (fun c => !c.isWhitespace) = true := by
      decide
    exact hfin ⟨_, Nat.mod_lt _ (by decide)⟩

theorem all_ws_false_of_any {l : List Char}
    (h : l.any (fun c => !c.isWhitespace) = true) :
    l.all (fun c => c.isWhitespace) = false := by
  rcases List.any_eq_true.mp h with ⟨c, hc, hcw⟩
  cases hall : l.all (fun c => c.isWhitespace) with
  | false => rfl
  | true =>
    have := List.all_eq_true.mp hall c hc
    rw [this] at hcw
    cases hcw

/-- A generated full name is never blank: its first-name component has
a non-whitespace character. -/
theorem generateRandomName_not_blank (g : Gender) (fl : Option Char) (r : Rng) :
    ((generateRandomName g fl r).1.data.all (fun c => c.isWhitespace)) = false := by
  rw [generateRandomName_eq]
  simp only [String.data_append, List.all_append]
  rw [all_ws_false_of_any (pickFirst_has_nonws g r)]
  simp

/-- A generated birth date lies in the generator's calendar window and
is a valid calendar date. -/
theorem generateRandomBirthDate_ok (r : Rng) :
    birthDateOk (generateRandomBirthDate r).1 = true := by
  unfold generateRandomBirthDate draw
  simp only
  exact daysToDate_ok _ (Nat.mod_lt _ (by decide))

/-- Core validity: an employee assembled from any generated name, any
generated birth date, and either gender string passes `validate` for
every `now` not earlier than the window's end. -/
theorem validateEmp_gen (g : Gender) (fl : Option Char) (r : Rng) (now : Date)
    (hnow : dateLe ⟨2005, 12, 31⟩ now = true) :
    (validateEmp now ⟨(generateRandomName g fl r).1,
      .onDate (generateRandomBirthDate (generateRandomName g fl r).2).1,
      g.str⟩).isValid = true := by
  have hbd := generateRandomBirthDate_ok (generateRandomName g fl r).2
  simp only [birthDateOk, Bool.and_eq_true] at hbd
  obtain ⟨⟨hvalid, _⟩, hle05⟩ := hbd
  unfold validateEmp
  simp only
  rw [if_neg (by rw [generateRandomName_not_blank]; exact fun h => nomatch h)]
  rw [if_neg (by rw [hvalid]; exact fun h => nomatch h)]
  rw [if_neg (by
    unfold dateAfter
    rw [dateLe_trans hle05 hnow]
    exact fun h => nomatch h)]
  rw [if_pos (by cases g <;> rfl)]
  rfl

/-- C10: every record produced by `generateRandomEmployee` — for any
supported forced gender, any forced surname letter present in the pool
(or none), and any randomness — passes `Employee.validate`: non-blank
name, valid birth date in 1950-01-01…2005-12-31 (hence not in the
future), and gender Male or Female. -/
theorem C10_generated_records_valid (fg : Option Gender) (fl : Option Char)
    (r : Rng) (now : Date)
    (hfl : fl = none ∨ ∃ c, fl = some c ∧
      (lastNames.filter (fun n => n.front.toLower == c.toLower)) ≠ [])
    (hnow : dateLe ⟨2005, 12, 31⟩ now = true) :
    (validateEmp now (generateRandomEmployee fg fl r).1).isValid = true := by
  cases fg with
  | some g =>
    rw [genEmp_forced_eq]
    exact validateEmp_gen g fl r now hnow
  | none =>
    have hcoin : (generateRandomEmployee none fl r).1 =
      ⟨(generateRandomName (if (draw r 2).1 == 0 then Gender.male else Gender.female)
          fl (draw r 2).2).1,
        .onDate (generateRandomBirthDate
          ((generateRandomName (if (draw r 2).1 == 0 then Gender.male else Gender.female)
            fl (draw r 2).2).2)).1,
        (if (draw r 2).1 == 0 then Gender.male else Gender.female).str⟩ := rfl
    rw [hcoin]
    exact validateEmp_gen _ fl (draw r 2).2 now hnow

/-- C10 witness: a forced special record generated from the empty
stream passes validation against 2026-10-11. -/
theorem C10_witness :
    ((some 'F' : Option Char) = none ∨ ∃ c, (some 'F' : Option Char) = some c ∧
        (lastNames.filter (fun n => n.front.toLower == c.toLower)) ≠ []) ∧
      dateLe ⟨2005, 12, 31⟩ now0 = true ∧
      (validateEmp now0 (generateRandomEmployee (some .male) (some 'F') []).1).isValid = true :=
  ⟨Or.inr ⟨'F', rfl, by decide⟩, by decide,
    C10_generated_records_valid (some .male) (some 'F') [] now0
      (Or.inr ⟨'F', rfl, by decide⟩) (by decide)⟩

end ConsoleApp
